import Mathlib

/-!
Verification development for the `fetch-network-event-poller` repository
(`src/eventfetcher/event_retriever.py`).

The Python module is shallowly embedded below:

* Python dicts (insertion ordered, in-place overwrite) become association
  lists with `dictGet` / `dictSet` / `List.length`;
* fallible Python code (uncaught `KeyError` / `TypeError` / `AttributeError` /
  `json` decode errors) becomes `Except Unit` / `Option`;
* the gRPC transport is abstracted: the paginated endpoint becomes a pure
  `server : Nat -> PageResp` function, and the transaction list handed to
  `_filter_events` becomes an explicit `List TxResponse` argument where each
  log event is given as its type tag plus its ordered attribute pairs (the
  protobuf text-format normalization of lines 289-306 recovers exactly those
  ordered pairs);
* the on-disk dedup file becomes an explicit `FileState` value threaded in
  and out of `fetch_events`.
-/

/-- Model of a Python dict lookup (`d.get(k)`): first binding wins; the
association lists built below always have distinct keys. -/
def dictGet : List (String × String) → String → Option String
  | [], _ => none
  | (k, v) :: rest, key => if k = key then some v else dictGet rest key

/-- Model of a Python dict store (`d[k] = v`): updates in place when the key
is present (keeping its position), otherwise appends at the end, exactly the
insertion-order semantics of a Python dict. -/
def dictSet : List (String × String) → String → String → List (String × String)
  | [], key, val => [(key, val)]
  | (k, v) :: rest, key, val =>
      if k = key then (key, val) :: rest else (k, v) :: dictSet rest key val

/-- The `ActionType` enum of `event_retriever.py` (lines 14-22). -/
inductive ActionType
  | refund
  | transfer
  | partTransfer
  | create
deriving DecidableEq

/-- The `.value` string of each `ActionType` member. -/
def ActionType.value : ActionType → String
  | .refund => "refund"
  | .transfer => "transfer"
  | .partTransfer => "partial_transfer"
  | .create => "create"

/-- The decoded `Event` record (lines 30-73).  `from_dict` passes every
field explicitly, and the attribute bag holds strings, so the optional
fields are `Option String` (Python `None` = `none`); `match_others` in
particular receives the bag lookup result, never the constructor default. -/
structure Event where
  id : String
  txn_hash : String
  action : Option String
  from_address : Option String
  to_address : Option String
  amount : Option String
  trade_pair : String
  sell_price : Option String
  escrow_address : Option String
  remaining_amount : Option String
  preferred_agent : Option String
  match_others : Option String
deriving DecidableEq

/-- Python `a or b` on optional strings: `None` and `""` are falsy and fall
through to `b`; any other string is returned as is. -/
def pyOr (a b : Option String) : Option String :=
  match a with
  | some s => if s = "" then b else some s
  | none => b

/-- Membership in the regex character class `[A-Za-z/]` used by
`extract_trade_pair` (line 124); `re` letter ranges are ASCII. -/
def isTradeChar (c : Char) : Bool :=
  (decide ('A' ≤ c) && decide (c ≤ 'Z')) ||
    (decide ('a' ≤ c) && decide (c ≤ 'z')) || c == '/'

/-- Greedy matcher for a one-or-more character-class regex anchored at the
start of the input (the semantics of `re.match(r"([A-Za-z/]+)", id)`):
returns the matched run and the remainder, or `none` when the first
character is outside the class. -/
def matchPlus (p : Char → Bool) : List Char → Option (List Char × List Char)
  | [] => none
  | c :: rest =>
      if p c then
        match matchPlus p rest with
        | some (run, rem) => some (c :: run, rem)
        | none => some ([c], rest)
      else none

/-- The `Event.extract_trade_pair` function (lines 117-125):
`re.match(r"([A-Za-z/]+)", id).group(1)`.  A failed match makes the Python
code raise (`.group` on `None`), modelled as `none`. -/
def extract_trade_pair (id : String) : Option String :=
  (matchPlus isTradeChar id.data).map (fun r => String.mk r.1)

/-- The `Event.from_dict` classmethod (lines 75-115).  `event_dict["TxnHash"]`
raises `KeyError` when absent; a missing or prefix-free `id` makes
`extract_trade_pair` raise; both are modelled as `none`.  All other fields
are `dict.get` lookups combined with Python `or`. -/
def Event.from_dict (bag : List (String × String)) : Option Event :=
  match dictGet bag "TxnHash" with
  | none => none
  | some txh =>
    match pyOr (dictGet bag "id") (dictGet bag "id1") with
    | none => none
    | some i =>
      match extract_trade_pair i with
      | none => none
      | some tp =>
        some
          { id := i
            txn_hash := txh
            action := pyOr (dictGet bag "action") (dictGet bag "action1")
            from_address := pyOr (dictGet bag "from") (dictGet bag "from1")
            to_address := pyOr (dictGet bag "to") (dictGet bag "to1")
            amount := pyOr (dictGet bag "amount") (dictGet bag "amount1")
            trade_pair := tp
            sell_price := pyOr (dictGet bag "sell_price") (dictGet bag "sell_price1")
            escrow_address := dictGet bag "escrow_contract_address"
            remaining_amount :=
              pyOr (dictGet bag "remaining_amount") (dictGet bag "remaining_amount1")
            preferred_agent :=
              pyOr (dictGet bag "preferred_agent") (dictGet bag "preferred_agent1")
            match_others :=
              pyOr (dictGet bag "match_others") (dictGet bag "match_others1") }

/-- One step of the attribute-bag construction loop of `_filter_events`
(lines 304-318).  For `_contract_address` the stored key is chosen from
`len(result) - 1`; for any other key the code computes
`result.get(key, 0) + 1`: when `key` is absent this is `1` (so the stored
key is always the key suffixed with `"1"`), and when `key` is present its
value is a string and `str + 1` raises `TypeError`, modelled as an error. -/
def bagStep (result : List (String × String)) (kv : String × String) :
    Except Unit (List (String × String)) :=
  if kv.1 = "_contract_address" then
    Except.ok
      (dictSet result
        (if result.length - 1 = 0 then "cw20_contract_address"
          else "escrow_contract_address")
        kv.2)
  else
    match dictGet result kv.1 with
    | some _ => Except.error ()
    | none => Except.ok (dictSet result (kv.1 ++ "1") kv.2)

/-- The attribute bag built from one wasm-tagged event's ordered attribute
pairs, seeded with `{"TxnHash": tx.txhash}` (line 303). -/
def buildBag (txhash : String) (attrs : List (String × String)) :
    Except Unit (List (String × String)) :=
  attrs.foldlM bagStep [("TxnHash", txhash)]

/-- One sub-event of a transaction log: the type tag (the code keeps only
fragments containing `type: "wasm"`, line 298) and the ordered attribute
pairs recovered from the stringified protobuf (lines 289-306). -/
structure LogEvent where
  is_wasm : Bool
  attributes : List (String × String)
deriving DecidableEq

/-- One transaction response: its hash and its logs, each log carrying its
sub-events (the `tx.logs` / `obj.events` nesting of lines 287-288). -/
structure TxResponse where
  txhash : String
  logs : List (List LogEvent)
deriving DecidableEq

/-- The action-filter rejection test of lines 319-325: applied only when
`action_type is not None`, vacuous when the list is empty, and an event is
skipped when every requested action differs from both `action` and
`action1` in the bag. -/
def actionSkip (bag : List (String × String)) (af : Option (List ActionType)) : Bool :=
  match af with
  | none => false
  | some ats =>
      !ats.isEmpty &&
        ats.all (fun a =>
          !(decide (dictGet bag "action" = some a.value)) &&
            !(decide (dictGet bag "action1" = some a.value)))

/-- The wallet-filter rejection test of lines 326-330. -/
def walletSkip (bag : List (String × String)) (w : Option String) : Bool :=
  match w with
  | none => false
  | some ua =>
      !(decide (dictGet bag "from" = some ua)) &&
        !(decide (dictGet bag "from1" = some ua))

/-- The inner loop of `_filter_events` over one log's sub-events (lines
297-331): non-wasm entries are ignored; for a wasm entry the bag is built,
the two filters may skip it, and otherwise `Event.from_dict` runs with no
surrounding `try`, so a decode failure aborts the whole traversal. -/
def filterLogEvents (af : Option (List ActionType)) (w : Option String)
    (txhash : String) : List LogEvent → Except Unit (List Event)
  | [] => Except.ok []
  | ev :: rest =>
    if ev.is_wasm then
      match buildBag txhash ev.attributes with
      | Except.error e => Except.error e
      | Except.ok bag =>
        if actionSkip bag af || walletSkip bag w then
          filterLogEvents af w txhash rest
        else
          match Event.from_dict bag with
          | none => Except.error ()
          | some e =>
            match filterLogEvents af w txhash rest with
            | Except.error er => Except.error er
            | Except.ok tail => Except.ok (e :: tail)
    else filterLogEvents af w txhash rest

/-- The loop of `_filter_events` over one transaction's logs (line 288). -/
def filterLogs (af : Option (List ActionType)) (w : Option String)
    (txhash : String) : List (List LogEvent) → Except Unit (List Event)
  | [] => Except.ok []
  | log :: rest =>
    match filterLogEvents af w txhash log with
    | Except.error e => Except.error e
    | Except.ok a =>
      match filterLogs af w txhash rest with
      | Except.error e => Except.error e
      | Except.ok b => Except.ok (a ++ b)

/-- The `_filter_events` method (lines 266-332) over the whole response
list, accumulating the surviving decoded events in discovery order. -/
def filter_events (af : Option (List ActionType)) (w : Option String) :
    List TxResponse → Except Unit (List Event)
  | [] => Except.ok []
  | tx :: rest =>
    match filterLogs af w tx.txhash tx.logs with
    | Except.error e => Except.error e
    | Except.ok a =>
      match filter_events af w rest with
      | Except.error e => Except.error e
      | Except.ok b => Except.ok (a ++ b)

/-- State of the persisted dedup file `<file_name>.json`: absent, present
but unreadable or unparseable, or a parsed JSON list of hash strings. -/
inductive FileState
  | absent
  | corrupt
  | valid (hashes : List String)
deriving DecidableEq

/-- The `load_processed_events` method (lines 178-189): a no-op unless
`discard_processed_events` is set; `FileNotFoundError` is caught and leaves
the in-memory set unchanged; any other failure (e.g. `json.load` on a
corrupt file) propagates. -/
def load_processed_events (fs : FileState) (discard : Bool)
    (current : List String) : Except Unit (List String) :=
  if discard then
    match fs with
    | FileState.absent => Except.ok current
    | FileState.corrupt => Except.error ()
    | FileState.valid hs => Except.ok hs
  else Except.ok current

/-- Python `set.update` on the insertion-ordered list model of a set: fold
each new element in, skipping ones already present. -/
def setUpdate (s : List String) (new : List String) : List String :=
  new.foldl (fun acc h => if h ∈ acc then acc else acc ++ [h]) s

/-- The `fetch_events` method (lines 191-222) with the remote query
abstracted as the transaction list `data` and the dedup file as `fs`.
Returns the delivered events, the final in-memory processed set and the
final file state.  The dedup membership test uses the loaded set; the file
is rewritten (with the updated set) only when dedup is enabled. -/
def fetch_events (data : List TxResponse) (fs : FileState) (mem : List String)
    (discard : Bool) (af : Option (List ActionType)) (w : Option String) :
    Except Unit (List Event × List String × FileState) :=
  match load_processed_events fs discard mem with
  | Except.error e => Except.error e
  | Except.ok mem2 =>
    match filter_events af w data with
    | Except.error e => Except.error e
    | Except.ok evs =>
      let toSend := evs.filter (fun e => !(decide (e.txn_hash ∈ mem2)))
      if discard then
        let mem3 := setUpdate mem2 (toSend.map (fun e => e.txn_hash))
        Except.ok (toSend, mem3, FileState.valid mem3)
      else Except.ok (toSend, mem2, fs)

/-- One page returned by `GetTxsEvent`: the `tx_responses` list and the
`pagination.total` field. -/
structure PageResp (α : Type) where
  tx_responses : List α
  total : Nat
deriving DecidableEq

/-- The `while True` pagination loop of `_query_txs_events` (lines 232-248),
with an explicit fuel bound (`none` models non-termination).  The returned
pair is the concatenated records and the list of offsets at which calls
were issued; the loop breaks exactly when the running offset (records
accumulated so far) reaches the total reported by the latest response. -/
def queryLoop {α : Type} (server : Nat → PageResp α) :
    Nat → Nat → List α → List Nat → Option (List α × List Nat)
  | 0, _, _, _ => none
  | fuel + 1, offset, acc, offs =>
    let r := server offset
    let acc2 := acc ++ r.tx_responses
    let off2 := offset + r.tx_responses.length
    let offs2 := offs ++ [offset]
    if r.total ≤ off2 then some (acc2, offs2)
    else queryLoop server fuel off2 acc2 offs2

/-- The `_query_txs_events` method: run the pagination loop from offset 0
with empty accumulators. -/
def query_txs_events {α : Type} (server : Nat → PageResp α) (fuel : Nat) :
    Option (List α × List Nat) :=
  queryLoop server fuel 0 [] []

/-- A remote service whose pages partition a fixed data set: the call at
`offset` serves the next `psize` records of `data` and always reports
`total = data.length`. -/
def sliceServer {α : Type} (data : List α) (psize : Nat) (offset : Nat) :
    PageResp α :=
  { tx_responses := (data.drop offset).take psize, total := data.length }

/-- Offsets at which the pagination loop calls a `sliceServer`: one call per
page, stepping by `psize` until the remaining records fit in one page. -/
def callOffsets (psize total offset : Nat) : List Nat :=
  if psize = 0 ∨ total ≤ offset + psize then [offset]
  else offset :: callOffsets psize total (offset + psize)
termination_by total - offset
decreasing_by omega

/-- A service whose reported total shrinks to the already-served count on
the third call, which returns zero records: two pages of two records
(reported total 5), then an empty page reporting total 4. -/
def shrinkServer (offset : Nat) : PageResp Nat :=
  if offset = 0 then { tx_responses := [0, 1], total := 5 }
  else if offset = 2 then { tx_responses := [2, 3], total := 5 }
  else { tx_responses := [], total := 4 }

/-- A service that always returns an empty page while reporting total 10,
so the running offset never advances. -/
def emptyServer (_ : Nat) : PageResp Nat :=
  { tx_responses := [], total := 10 }

/-! Helper lemmas. -/

lemma string_data_append (s t : String) : (s ++ t).data = s.data ++ t.data := rfl

lemma append_one_ne (k : String) : k ++ "1" ≠ k := by
  intro h
  have h2 : (k ++ "1").data.length = k.data.length := by rw [h]
  rw [string_data_append] at h2
  simp at h2

lemma txnhash_ne_append_one (k : String) : "TxnHash" ≠ k ++ "1" := by
  intro h
  have h2 : ("TxnHash" : String).data.getLast? = (k ++ "1").data.getLast? := by rw [h]
  rw [string_data_append] at h2
  rw [List.getLast?_concat] at h2
  simp at h2

/-- C1 counterexample: the attribute list `[("action", "a"), ("action", "b")]`
does not yield bag keys `action` (first occurrence) and `action1` (second):
the bag contains no `action` key at all, and `action1` holds the second
value, the first having been overwritten. -/
theorem c1_counterexample :
    buildBag "T" [("action", "a"), ("action", "b")] =
      Except.ok [("TxnHash", "T"), ("action1", "b")] ∧
    dictGet [("TxnHash", "T"), ("action1", "b")] "action" = none := by
  exact ⟨rfl, rfl⟩

/-- C1 amended: every occurrence of a non-contract-address key `k` (other
than the reserved `TxnHash` seed key) is stored under `k ++ "1"`, each
occurrence overwriting the previous one, because `result.get(key, 0) + 1`
consults the bag of values (where the unsuffixed key is never stored), so
the computed suffix is always 1; in particular a list with two `action`
entries yields a bag holding only `action1`, bound to the second value,
and no unsuffixed `action` key. -/
theorem c1_amended_duplicate_key_suffixing (t v1 v2 k : String)
    (h1 : k ≠ "_contract_address") (h2 : k ≠ "TxnHash") :
    buildBag t [(k, v1), (k, v2)] = Except.ok [("TxnHash", t), (k ++ "1", v2)] ∧
    dictGet [("TxnHash", t), (k ++ "1", v2)] k = none := by
  have hk1 : ¬ ("TxnHash" = k) := fun h => h2 h.symm
  have hk2 : ¬ (k ++ "1" = k) := append_one_ne k
  have hk3 : ¬ ("TxnHash" = k ++ "1") := txnhash_ne_append_one k
  constructor
  · simp [buildBag, bagStep, dictGet, dictSet, h1, hk1, hk2, hk3, List.foldlM,
      bind, Except.bind, pure, Except.pure]
  · simp [dictGet, hk1, hk2]

/-- C1 witness: instantiation of the amended duplicate-key behaviour at the
key `from` with two occurrences. -/
theorem c1_witness :
    buildBag "T2" [("from", "w1"), ("from", "w2")] =
      Except.ok [("TxnHash", "T2"), ("from1", "w2")] ∧
    dictGet [("TxnHash", "T2"), ("from1", "w2")] "from" = none := by
  exact c1_amended_duplicate_key_suffixing "T2" "w1" "w2" "from"
    (by decide) (by decide)

/-- C2 counterexample: in the attribute list
`[("action", "x"), ("_contract_address", "A"), ("_contract_address", "B")]`
the two `_contract_address` entries do not map to cw20 (first) and escrow
(second): because `action` precedes them the bag already has two keys when
the first one is scanned, so both map to `escrow_contract_address` (the
second overwriting the first) and no `cw20_contract_address` key exists. -/
theorem c2_counterexample :
    buildBag "T" [("action", "x"), ("_contract_address", "A"),
        ("_contract_address", "B")] =
      Except.ok [("TxnHash", "T"), ("action1", "x"),
        ("escrow_contract_address", "B")] ∧
    dictGet [("TxnHash", "T"), ("action1", "x"),
        ("escrow_contract_address", "B")] "cw20_contract_address" = none := by
  exact ⟨rfl, rfl⟩

/-- C2 amended: a `_contract_address` occurrence maps to
`cw20_contract_address` exactly when the bag still holds only the
transaction hash at that point — i.e. when it is the first attribute of the
list — and to `escrow_contract_address` otherwise; so the first/second ->
cw20/escrow mapping holds when the first `_contract_address` entry leads the
attribute list (other keys may fall between the two), but any attribute
preceding the first occurrence sends every occurrence to escrow. -/
theorem c2_amended_contract_address_mapping (t a b v : String) :
    buildBag t [("_contract_address", a), ("_contract_address", b)] =
      Except.ok [("TxnHash", t), ("cw20_contract_address", a),
        ("escrow_contract_address", b)] ∧
    buildBag t [("_contract_address", a), ("action", v),
        ("_contract_address", b)] =
      Except.ok [("TxnHash", t), ("cw20_contract_address", a),
        ("action1", v), ("escrow_contract_address", b)] ∧
    buildBag t [("action", v), ("_contract_address", a),
        ("_contract_address", b)] =
      Except.ok [("TxnHash", t), ("action1", v),
        ("escrow_contract_address", b)] := by
  exact ⟨rfl, rfl, rfl⟩

/-- The greedy one-or-more matcher computes exactly the maximal leading run
of characters satisfying `p` (empty run meaning failure). -/
lemma matchPlus_eq (p : Char → Bool) (l : List Char) :
    matchPlus p l =
      (if l.takeWhile p = [] then none
        else some (l.takeWhile p, l.dropWhile p)) := by
  induction l with
  | nil => simp [matchPlus]
  | cons c rest ih =>
    by_cases hp : p c
    · rw [matchPlus, if_pos hp, ih]
      cases hr : rest.takeWhile p with
      | nil =>
        have hd : rest.dropWhile p = rest := by
          have h2 := List.takeWhile_append_dropWhile (p := p) (l := rest)
          rw [hr] at h2
          simpa using h2
        simp [List.takeWhile_cons, List.dropWhile_cons, hp, hr, hd]
      | cons c2 t =>
        simp [List.takeWhile_cons, List.dropWhile_cons, hp, hr]
    · rw [matchPlus, if_neg hp]
      simp [List.takeWhile_cons, hp]

/-- C4: `extract_trade_pair` returns the maximal leading run of ASCII
letters and `/` of the id, failing exactly when that run is empty (i.e.
when the first character is outside the class, e.g. a digit); and whenever
the run is empty, decoding any bag that supplies that id fails. -/
theorem c4_trade_pair (id : String) :
    extract_trade_pair id =
      (if id.data.takeWhile isTradeChar = [] then none
        else some (String.mk (id.data.takeWhile isTradeChar))) ∧
    (id.data.takeWhile isTradeChar = [] →
      ∀ bag, pyOr (dictGet bag "id") (dictGet bag "id1") = some id →
        Event.from_dict bag = none) := by
  have hchar : extract_trade_pair id =
      (if id.data.takeWhile isTradeChar = [] then none
        else some (String.mk (id.data.takeWhile isTradeChar))) := by
    unfold extract_trade_pair
    rw [matchPlus_eq]
    by_cases h : id.data.takeWhile isTradeChar = [] <;> simp [h]
  refine ⟨hchar, ?_⟩
  intro h bag hbag
  have hE : extract_trade_pair id = none := by rw [hchar, if_pos h]
  unfold Event.from_dict
  cases hT : dictGet bag "TxnHash" with
  | none => rfl
  | some txh =>
    rw [hbag]
    simp [hE]

/-- C4 witness: a well-formed id yields its leading letter-and-slash run,
and an id starting with a digit makes decoding fail. -/
theorem c4_witness :
    extract_trade_pair "AB/CD-12" = some "AB/CD" ∧
    Event.from_dict [("TxnHash", "T"), ("id1", "9XY")] = none := by
  constructor
  · rw [(c4_trade_pair "AB/CD-12").1]
    rfl
  · exact (c4_trade_pair "9XY").2 (by rfl)
      [("TxnHash", "T"), ("id1", "9XY")] (by rfl)

/-- C9 counterexample: decoding a bag in which `match_others` and
`match_others1` are absent yields an event whose `match_others` field is
`none` (Python `None`), not a true default: `from_dict` always passes the
bag lookup result to the constructor, so the `match_others=True` parameter
default never applies. -/
theorem c9_counterexample :
    (Event.from_dict [("TxnHash", "TX"), ("id1", "CD/2")]).map
      (fun e => e.match_others) = some none := by
  rfl

/-- C9 amended: for every bag lacking both `match_others` and
`match_others1`, any successfully decoded event has `match_others = none`
(the value is absent; the constructor default true is dead code on the
`from_dict` path). -/
theorem c9_amended_match_others_absent (bag : List (String × String))
    (e : Event) (h1 : dictGet bag "match_others" = none)
    (h2 : dictGet bag "match_others1" = none)
    (h3 : Event.from_dict bag = some e) : e.match_others = none := by
  cases hT : dictGet bag "TxnHash" with
  | none => simp [Event.from_dict, hT] at h3
  | some txh =>
    cases hI : pyOr (dictGet bag "id") (dictGet bag "id1") with
    | none => simp [Event.from_dict, hT, hI] at h3
    | some i =>
      cases hE : extract_trade_pair i with
      | none => simp [Event.from_dict, hT, hI, hE] at h3
      | some tp =>
        simp only [Event.from_dict, hT, hI, hE, Option.some.injEq] at h3
        subst h3
        simp [h1, h2, pyOr]

/-- C9 witness: instantiation of the amended claim at a concrete bag with
no `match_others` keys. -/
theorem c9_witness :
    Event.from_dict [("TxnHash", "T"), ("id1", "AB/1")] =
      some { id := "AB/1", txn_hash := "T", action := none,
             from_address := none, to_address := none, amount := none,
             trade_pair := "AB/", sell_price := none, escrow_address := none,
             remaining_amount := none, preferred_agent := none,
             match_others := none } ∧
    Event.match_others { id := "AB/1", txn_hash := "T", action := none,
                         from_address := none, to_address := none,
                         amount := none, trade_pair := "AB/",
                         sell_price := none, escrow_address := none,
                         remaining_amount := none, preferred_agent := none,
                         match_others := none } = none := by
  refine ⟨rfl, ?_⟩
  exact c9_amended_match_others_absent [("TxnHash", "T"), ("id1", "AB/1")] _
    rfl rfl rfl

/-- C6 counterexample: loading with dedup enabled from a corrupt store does
not yield the empty set without raising: the `json.load` failure is not a
`FileNotFoundError`, so it propagates. -/
theorem c6_counterexample :
    load_processed_events FileState.corrupt true [] = Except.error () := by
  rfl

/-- C6 amended: with dedup enabled, an absent store file is caught and
leaves the in-memory set unchanged (the empty set on a fresh retriever),
while a corrupt store propagates its read error — absent and corrupt are
not treated identically; a valid store replaces the set with its contents. -/
theorem c6_amended_load_fail_open (cur : List String) :
    load_processed_events FileState.absent true cur = Except.ok cur ∧
    load_processed_events FileState.corrupt true cur = Except.error () ∧
    ∀ hs, load_processed_events (FileState.valid hs) true cur =
      Except.ok hs := by
  exact ⟨rfl, rfl, fun hs => rfl⟩

/-- A wasm-tagged event with zero attributes: its bag holds only the
transaction hash, so `Event.from_dict` fails (no id). -/
def c5bad : LogEvent := { is_wasm := true, attributes := [] }

/-- A well-formed wasm-tagged event. -/
def c5good : LogEvent := { is_wasm := true, attributes := [("id", "AB/CD-7")] }

/-- The event `c5good` decodes to. -/
def c5event : Event :=
  { id := "AB/CD-7", txn_hash := "T", action := none, from_address := none,
    to_address := none, amount := none, trade_pair := "AB/CD",
    sell_price := none, escrow_address := none, remaining_amount := none,
    preferred_agent := none, match_others := none }

/-- C5 counterexample: a single malformed bag is not silently skipped — it
aborts the whole `fetch_events` call.  With the malformed wasm event
alongside a well-formed one, `fetch_events` returns an error rather than
the surviving event, while the same call without the malformed event
returns that event. -/
theorem c5_counterexample :
    fetch_events [{ txhash := "T", logs := [[c5bad, c5good]] }]
        FileState.absent [] false none none = Except.error () ∧
    fetch_events [{ txhash := "T", logs := [[c5good]] }]
        FileState.absent [] false none none =
      Except.ok ([c5event], [], FileState.absent) := by
  exact ⟨rfl, rfl⟩

/-- C5 amended: `Event.from_dict` does fail on a bag lacking a required
field, but there is no surrounding exception handler, so the failure
propagates: whenever `_filter_events` raises, the whole `fetch_events`
call errors out instead of skipping the offending bag and continuing. -/
theorem c5_amended_decode_error_aborts (data : List TxResponse)
    (fs : FileState) (mem : List String) (discard : Bool)
    (af : Option (List ActionType)) (w : Option String)
    (h : filter_events af w data = Except.error ()) :
    fetch_events data fs mem discard af w = Except.error () := by
  cases hl : load_processed_events fs discard mem with
  | error e => cases e; simp [fetch_events, hl]
  | ok m => simp [fetch_events, hl, h]

/-- C5 witness: the amended claim at the concrete malformed data set, with
dedup enabled and a pre-existing store. -/
theorem c5_witness :
    fetch_events [{ txhash := "T", logs := [[c5bad, c5good]] }]
        (FileState.valid ["H"]) ["H"] true none none = Except.error () := by
  exact c5_amended_decode_error_aborts _ _ _ _ _ _ rfl

/-- The pagination loop never terminates against `emptyServer`: the offset
never advances and the reported total is never reached, whatever the fuel. -/
lemma queryLoop_emptyServer (fuel : Nat) :
    ∀ acc offs, queryLoop emptyServer fuel 0 acc offs = none := by
  induction fuel with
  | zero => intro acc offs; rfl
  | succ f ih => intro acc offs; simp [queryLoop, emptyServer]; exact ih _ _

/-- C8: the loop breaks exactly on the offset-reaches-total condition, not
on response emptiness.  Against `shrinkServer` the third call returns zero
records yet the loop terminates (the running offset 4 reaches the reported
total 4) returning the four accumulated records and the three call offsets;
against `emptyServer` every response is empty but the total is never
reached, and the loop runs out of any amount of fuel. -/
theorem c8_termination :
    query_txs_events shrinkServer 10 = some ([0, 1, 2, 3], [0, 2, 4]) ∧
    ∀ fuel, query_txs_events emptyServer fuel = none := by
  exact ⟨rfl, fun fuel => queryLoop_emptyServer fuel [] []⟩

/-- Invariant of the pagination loop against a partitioning server: from any
offset, with enough fuel, the loop returns the accumulated records followed
by every remaining record, and issues one call per remaining page at the
offsets described by `callOffsets` (each offset equal to the number of
records accumulated when the call is made). -/
lemma queryLoop_sliceServer {α : Type} (data : List α) (psize : Nat)
    (hp : 0 < psize) :
    ∀ fuel offset acc offs, data.length ≤ offset + psize * fuel →
      queryLoop (sliceServer data psize) (fuel + 1) offset acc offs =
        some (acc ++ data.drop offset,
          offs ++ callOffsets psize data.length offset) := by
  intro fuel
  induction fuel with
  | zero =>
    intro offset acc offs hle
    rw [Nat.mul_zero, Nat.add_zero] at hle
    have hdrop : data.drop offset = [] := List.drop_eq_nil_of_le hle
    have hco : callOffsets psize data.length offset = [offset] := by
      rw [callOffsets, if_pos (Or.inr (by omega))]
    rw [queryLoop]
    simp only [sliceServer, hdrop, List.take_nil, List.length_nil,
      Nat.add_zero, List.append_nil]
    rw [if_pos hle, hco]
  | succ f ih =>
    intro offset acc offs hle
    by_cases hc : data.length ≤ offset + psize
    · have htake : (data.drop offset).take psize = data.drop offset :=
        List.take_of_length_le (by rw [List.length_drop]; omega)
      have hco : callOffsets psize data.length offset = [offset] := by
        rw [callOffsets, if_pos (Or.inr hc)]
      rw [queryLoop]
      simp only [sliceServer, htake, List.length_drop]
      rw [if_pos (by omega), hco]
    · have htlen : ((data.drop offset).take psize).length = psize := by
        rw [List.length_take, List.length_drop]; omega
      have hsplit : (data.drop offset).take psize ++ data.drop (offset + psize) =
          data.drop offset := by
        rw [← List.drop_drop psize offset data]
        · rw [List.take_append_drop]
      have hco : callOffsets psize data.length offset =
          offset :: callOffsets psize data.length (offset + psize) := by
        rw [callOffsets, if_neg (by omega)]
      have hle2 : data.length ≤ (offset + psize) + psize * f := by
        rw [Nat.mul_succ] at hle
        omega
      rw [queryLoop]
      simp only [sliceServer, htlen]
      rw [if_neg (by omega)]
      rw [ih (offset + psize) _ _ hle2, hco]
      rw [List.append_assoc acc, hsplit, List.append_assoc offs]
      rfl

/-- C3: against any server whose pages partition a fixed record list (page
size `psize > 0`, reported total = number of records), the paginated query
returns the flat, order-preserving concatenation of all records — nothing
dropped or duplicated — issuing one call per page at exactly the offsets
`callOffsets psize total 0 = [0, psize, 2*psize, ...]`, each equal to the
number of records already accumulated. -/
theorem c3_pagination {α : Type} (data : List α) (psize fuel : Nat)
    (hp : 0 < psize) (hf : data.length + 1 ≤ fuel) :
    query_txs_events (sliceServer data psize) fuel =
      some (data, callOffsets psize data.length 0) := by
  obtain ⟨f, rfl⟩ : ∃ f, fuel = f + 1 := ⟨fuel - 1, by omega⟩
  have h1 : data.length ≤ f := by omega
  have h2 : f ≤ psize * f := Nat.le_mul_of_pos_left f hp
  have h3 := queryLoop_sliceServer data psize hp f 0 [] [] (by omega)
  simpa [query_txs_events] using h3

/-- C3 witness: a server holding 250 records in pages of 100 is queried by
exactly 3 calls at offsets 0, 100, 200 and all 250 records come back in
order. -/
theorem c3_witness :
    0 < 100 ∧ (List.range 250).length + 1 ≤ 251 ∧
    query_txs_events (sliceServer (List.range 250) 100) 251 =
      some (List.range 250, [0, 100, 200]) := by
  refine ⟨by decide, by simp, ?_⟩
  rw [c3_pagination (List.range 250) 100 251 (by decide) (by simp)]
  have hco : callOffsets 100 (List.range 250).length 0 = [0, 100, 200] := by
    rw [List.length_range]
    simp [callOffsets]
  rw [hco]

lemma setUpdate_nil (s : List String) : setUpdate s [] = s := rfl

lemma setUpdate_cons (s : List String) (b : String) (t : List String) :
    setUpdate s (b :: t) = setUpdate (if b ∈ s then s else s ++ [b]) t := rfl

lemma subset_setUpdate (l : List String) :
    ∀ s, ∀ a ∈ s, a ∈ setUpdate s l := by
  induction l with
  | nil => intro s a ha; exact ha
  | cons b t ih =>
    intro s a ha
    rw [setUpdate_cons]
    apply ih
    by_cases hb : b ∈ s
    · rw [if_pos hb]; exact ha
    · rw [if_neg hb]; exact List.mem_append_left _ ha

lemma mem_setUpdate_of_mem (l : List String) :
    ∀ s a, a ∈ l → a ∈ setUpdate s l := by
  induction l with
  | nil => intro s a ha; cases ha
  | cons b t ih =>
    intro s a ha
    rw [setUpdate_cons]
    rcases List.mem_cons.mp ha with rfl | ht
    · apply subset_setUpdate t
      by_cases hb : a ∈ s
      · rw [if_pos hb]; exact hb
      · rw [if_neg hb]
        exact List.mem_append_right _ (List.mem_singleton_self a)
    · exact ih _ _ ht

lemma filter_not_mem_nil (l : List Event) :
    l.filter (fun e => !(decide (e.txn_hash ∈ ([] : List String)))) = l := by
  induction l with
  | nil => rfl
  | cons a t ih => simp [List.filter_cons, ih]

lemma filter_mem_eq_nil (evs : List Event) (m : List String)
    (h : ∀ e ∈ evs, e.txn_hash ∈ m) :
    evs.filter (fun e => !(decide (e.txn_hash ∈ m))) = [] := by
  induction evs with
  | nil => rfl
  | cons a t ih =>
    have ha := h a (List.mem_cons_self a t)
    simp [List.filter_cons, ha]
    intro e he
    exact h e (List.mem_cons_of_mem a he)

/-- C7: dedup round trip.  Starting from an absent store and an empty
in-memory set, if the first dedup-enabled `fetch_events` call succeeds then
it delivers every event the filter pipeline produces for the remote data,
and a second dedup-enabled call against the unchanged data and the store
persisted by the first call delivers the empty list. -/
theorem c7_dedup_round_trip (data : List TxResponse)
    (af : Option (List ActionType)) (w : Option String)
    (evs : List Event) (mem1 : List String) (fs1 : FileState)
    (h : fetch_events data FileState.absent [] true af w =
      Except.ok (evs, mem1, fs1)) :
    filter_events af w data = Except.ok evs ∧
    fetch_events data fs1 [] true af w = Except.ok ([], mem1, fs1) := by
  cases hf : filter_events af w data with
  | error e =>
    rw [show fetch_events data FileState.absent [] true af w = Except.error e
      from by simp [fetch_events, load_processed_events, hf]] at h
    cases h
  | ok evs2 =>
    have hmain : fetch_events data FileState.absent [] true af w =
        Except.ok (evs2, setUpdate [] (evs2.map (fun e => e.txn_hash)),
          FileState.valid (setUpdate [] (evs2.map (fun e => e.txn_hash)))) := by
      simp only [fetch_events, load_processed_events, hf, if_true,
        filter_not_mem_nil]
    rw [hmain] at h
    injection h with h2
    have he : evs2 = evs := congrArg (fun t => t.1) h2
    have hm : setUpdate [] (evs2.map (fun e => e.txn_hash)) = mem1 :=
      congrArg (fun t => t.2.1) h2
    have hfs : FileState.valid (setUpdate [] (evs2.map (fun e => e.txn_hash))) =
        fs1 := congrArg (fun t => t.2.2) h2
    subst he
    rw [hm] at hfs
    refine ⟨rfl, ?_⟩
    have hall : ∀ e ∈ evs2, e.txn_hash ∈ mem1 := by
      intro e hme
      rw [← hm]
      exact mem_setUpdate_of_mem _ _ _ (List.mem_map_of_mem _ hme)
    rw [← hfs]
    simp only [fetch_events, load_processed_events, hf,
      filter_mem_eq_nil evs2 mem1 hall, if_true, List.map_nil, setUpdate_nil]

/-- One remote transaction with a single well-formed wasm event. -/
def sampleData : List TxResponse :=
  [{ txhash := "T1",
     logs := [[{ is_wasm := true,
                 attributes := [("id", "AB/CD-55"), ("action", "transfer")] }]] }]

/-- The event `sampleData` decodes to. -/
def sampleEvent : Event :=
  { id := "AB/CD-55", txn_hash := "T1", action := some "transfer",
    from_address := none, to_address := none, amount := none,
    trade_pair := "AB/CD", sell_price := none, escrow_address := none,
    remaining_amount := none, preferred_agent := none, match_others := none }

/-- C7 witness: the round trip at a concrete one-event remote data set —
first call delivers the event and persists its hash, second call delivers
nothing. -/
theorem c7_witness :
    fetch_events sampleData FileState.absent [] true none none =
      Except.ok ([sampleEvent], ["T1"], FileState.valid ["T1"]) ∧
    filter_events none none sampleData = Except.ok [sampleEvent] ∧
    fetch_events sampleData (FileState.valid ["T1"]) [] true none none =
      Except.ok ([], ["T1"], FileState.valid ["T1"]) := by
  have h := c7_dedup_round_trip sampleData none none [sampleEvent] ["T1"]
    (FileState.valid ["T1"]) rfl
  exact ⟨rfl, h.1, h.2⟩

/-- C10: with dedup disabled, `fetch_events` is fully characterized without
consulting the store: the result is the pipeline output filtered against
the in-memory set, that set and the file state pass through unchanged (the
file is neither read — the outcome is the same for any two file states,
even a corrupt one — nor written), the returned events still exclude any
event whose hash is in the in-memory set, and on an empty in-memory set
(fresh retriever) nothing is suppressed. -/
theorem c10_frame_no_dedup (data : List TxResponse) (fs fs' : FileState)
    (mem : List String) (af : Option (List ActionType)) (w : Option String) :
    (fetch_events data fs mem false af w =
      (match filter_events af w data with
        | Except.error e => Except.error e
        | Except.ok evs =>
          Except.ok (evs.filter (fun e => !(decide (e.txn_hash ∈ mem))),
            mem, fs))) ∧
    ((fetch_events data fs mem false af w).map (fun r => (r.1, r.2.1)) =
      (fetch_events data fs' mem false af w).map (fun r => (r.1, r.2.1))) ∧
    (∀ evs, filter_events af w data = Except.ok evs →
      fetch_events data fs [] false af w = Except.ok (evs, [], fs)) := by
  refine ⟨?_, ?_, ?_⟩
  · cases hf : filter_events af w data <;>
      simp [fetch_events, load_processed_events, hf]
  · cases hf : filter_events af w data <;>
      simp [fetch_events, load_processed_events, hf, Except.map]
  · intro evs hf
    simp [fetch_events, load_processed_events, hf, filter_not_mem_nil]

/-- C10 witness: with dedup disabled and a corrupt store the call neither
fails nor touches the file, yet an event whose hash sits in the in-memory
set is still suppressed; with a fresh empty set the event is delivered and
the file state is untouched. -/
theorem c10_witness :
    fetch_events sampleData FileState.corrupt ["T1"] false none none =
      Except.ok ([], ["T1"], FileState.corrupt) ∧
    fetch_events sampleData FileState.absent [] false none none =
      Except.ok ([sampleEvent], [], FileState.absent) := by
  constructor
  · exact ((c10_frame_no_dedup sampleData FileState.corrupt FileState.corrupt
      ["T1"] none none).1).trans (by rfl)
  · exact (c10_frame_no_dedup sampleData FileState.absent FileState.absent
      [] none none).2.2 [sampleEvent] rfl
